import Mathlib

set_option maxRecDepth 100000

/-!
Verification of the RAG knowledge-base core (`knowledge_tools.py`).

The embedding models Python strings as `List Char` (so slicing and
`strip` act on characters), the external embedding service and the
vector-storage engine as oracle functions supplied in an environment
record, and the `while` loop of `DocumentChunker.chunk_text` as a
fuel-indexed recursion whose fuel-insensitivity is proved below.
File paths are modelled as already-absolute strings, so
`str(path.absolute())` is the identity.
-/

namespace KnowledgeTools

/-- Python `str.strip()`: drop leading and trailing whitespace. -/
def pyStrip (s : List Char) : List Char :=
  ((s.dropWhile Char.isWhitespace).reverse.dropWhile Char.isWhitespace).reverse

/-- One chunk record produced by `DocumentChunker.chunk_text`
(`text` is the stripped window, positions are window offsets). -/
structure Chunk where
  text : List Char
  source : String
  chunk_index : Nat
  char_start : Nat
  char_end : Nat
deriving DecidableEq, Repr

/-- The `while start < len(text)` loop of `chunk_text`, with explicit fuel.
Each step takes the window `text[start : start+chunk_size]`, breaks when the
stripped window is shorter than 100 characters, otherwise emits a chunk and
advances `start` by `chunk_size - overlap`. -/
def chunkTextLoop (cs ov : Nat) (text : List Char) (source : String) :
    Nat → Nat → Nat → List Chunk
  | 0, _, _ => []
  | Nat.succ fuel, start, idx =>
    if start < text.length then
      if (pyStrip ((text.drop start).take cs)).length < 100 then
        []
      else
        { text := pyStrip ((text.drop start).take cs), source := source,
          chunk_index := idx, char_start := start, char_end := start + cs } ::
          chunkTextLoop cs ov text source fuel (start + (cs - ov)) (idx + 1)
    else []

/-- Model of `DocumentChunker` with its two configuration fields
(defaults `CHUNK_SIZE_CHARS = 2000`, `CHUNK_OVERLAP_CHARS = 200`). -/
structure DocumentChunker where
  chunk_size : Nat := 2000
  overlap : Nat := 200
deriving DecidableEq, Repr

/-- Method `DocumentChunker.chunk_text`: run the loop from `start = 0`,
`chunk_idx = 0`.  Fuel `text.length + 1` is sufficient whenever
`overlap < chunk_size` (proved below as fuel-insensitivity). -/
def DocumentChunker.chunk_text (c : DocumentChunker) (text : List Char)
    (source : String) : List Chunk :=
  chunkTextLoop c.chunk_size c.overlap text source (text.length + 1) 0 0

/-- Model of `EmbeddingGenerator`, parametric in the vector type `V` returned by the
external service.  `svc model content task_type output_dimensionality` is the
oracle for `genai.embed_content`; `Except.error` models a raised exception. -/
structure EmbeddingGenerator (V : Type) where
  model : String := "gemini-embedding-001"
  dimension : Nat := 768
  svc : String → List Char → String → Nat → Except String V

/-- Method `EmbeddingGenerator.generate_embedding`: one call to the service. -/
def EmbeddingGenerator.generate_embedding {V : Type} (g : EmbeddingGenerator V)
    (text : List Char) (task_type : String) : Except String V :=
  g.svc g.model text task_type g.dimension

/-- Method `EmbeddingGenerator.generate_batch_embeddings`: the `for` loop appending
one single-text embedding per input; a raised exception aborts the batch. -/
def EmbeddingGenerator.generate_batch_embeddings {V : Type}
    (g : EmbeddingGenerator V) :
    List (List Char) → String → Except String (List V)
  | [], _ => Except.ok []
  | t :: ts, task_type =>
    match g.generate_embedding t task_type with
    | Except.error e => Except.error e
    | Except.ok v =>
      match g.generate_batch_embeddings ts task_type with
      | Except.error e => Except.error e
      | Except.ok vs => Except.ok (v :: vs)

/-- One LanceDB row of the `"documents"` table. -/
structure Row (V : Type) where
  text : List Char
  vector : V
  source : String
  chunk_index : Nat
  char_start : Nat
  char_end : Nat
deriving DecidableEq, Repr

/-- The knowledge-base storage state: whether the `knowledge_db` directory
exists, and the `"documents"` table (`none` = `open_table` raises). -/
structure KBState (V : Type) where
  dbExists : Bool
  table : Option (List (Row V))
deriving DecidableEq, Repr

/-- Python `Path(source).name`: the last slash-separated component. -/
def pathName (s : String) : String :=
  (s.splitOn ("/")).getLastD s

/-- A single-quote character, used in formatted messages. -/
def sq : String := String.mk ['\x27']

/-- Number of rows of the table whose `source` equals `src`
(`len(all_data[all_data['source'] == source])`). -/
def sourceCount {V : Type} (rows : List (Row V)) (src : String) : Nat :=
  (rows.filter (fun r => r.source == src)).length

/-- Pandas unique over the source column: sources in order of first occurrence. -/
def uniqueSources {V : Type} (rows : List (Row V)) : List String :=
  (rows.map (fun r => r.source)).eraseDups

/-- Per-result display blocks of `search_knowledge_base`, numbered from `i`;
text is display-truncated to 500 characters with a truncation marker. -/
def formatResults {V : Type} : Nat → List (Row V) → List String
  | _, [] => []
  | i, r :: rs =>
    (["\n--- Result " ++ toString i ++ " (from " ++ pathName r.source ++
        ", chunk " ++ toString r.chunk_index ++ ") ---",
      String.mk (r.text.take 500)] ++
      (if 500 < r.text.length then ["... (truncated)"] else [])) ++
      formatResults (i + 1) rs

/-- The success message of `index_document`. -/
def successMsg (file_path : String) (n : Nat) : String :=
  "Successfully indexed " ++ pathName file_path ++ ": " ++ toString n ++
    " chunks created and embedded"

/-- Environment of oracle outcomes for one `index_document` call:
whether the file exists, the `markitdown` extraction result, the embedding
service, and whether the storage append succeeds (`addErr` is the raised
storage error otherwise). -/
structure IngestEnv (V : Type) where
  fileExists : Bool
  extract : Except String (List Char)
  svc : String → List Char → String → Nat → Except String V
  addOk : Bool
  addErr : String

/-- Operation `index_document(file_path)`: returns the status string and the new
storage state.  Every raised exception is caught at the boundary and turned
into an `Error ...` string. -/
def indexDocument {V : Type} (env : IngestEnv V) (st : KBState V)
    (file_path : String) : String × KBState V :=
  if env.fileExists = false then
    ("Error: File " ++ file_path ++ " does not exist", st)
  else
    match env.extract with
    | Except.error e => ("Error indexing document: " ++ e, st)
    | Except.ok text_content =>
      if text_content.isEmpty || decide ((pyStrip text_content).length < 50) then
        ("Error: Could not extract meaningful text from " ++ file_path, st)
      else
        match DocumentChunker.chunk_text {} text_content file_path with
        | [] => ("Error: No chunks created from " ++ file_path, st)
        | c :: crest =>
          match EmbeddingGenerator.generate_batch_embeddings
              { svc := env.svc }
              ((c :: crest).map (fun ch => ch.text)) "RETRIEVAL_DOCUMENT" with
          | Except.error e => ("Error indexing document: " ++ e, st)
          | Except.ok embeddings =>
            let data_for_db := List.zipWith
              (fun (ch : Chunk) v =>
                Row.mk ch.text v ch.source ch.chunk_index ch.char_start ch.char_end)
              (c :: crest) embeddings
            match st.table with
            | some rows =>
              if env.addOk then
                (successMsg file_path (c :: crest).length,
                 ⟨true, some (rows ++ data_for_db)⟩)
              else
                ("Error indexing document: " ++ env.addErr, st)
            | none =>
              (successMsg file_path (c :: crest).length, ⟨true, some data_for_db⟩)

/-- Environment for one `search_knowledge_base` call: the embedding service
and the vector engine's ranked search over the table rows. -/
structure SearchEnv (V : Type) where
  svc : String → List Char → String → Nat → Except String V
  searchFn : List (Row V) → V → Nat → List (Row V)

/-- The "index absent" signal of `search_knowledge_base`. -/
def kbNotFoundMsg : String :=
  "Knowledge base not found. Please index some documents first using the index_document tool."

/-- The "table absent" signal of `search_knowledge_base`. -/
def noDocsMsg : String :=
  "No documents have been indexed yet. Use index_document first."

/-- The "no matches" signal of `search_knowledge_base`. -/
def noMatchesMsg (query : List Char) : String :=
  "No relevant information found for query: " ++ sq ++ String.mk query ++ sq

/-- The ranked-result output of `search_knowledge_base`. -/
def searchHitsMsg {V : Type} (query : List Char) (results : List (Row V)) : String :=
  String.intercalate ("\n")
    (("Found " ++ toString results.length ++ " relevant chunks for " ++ sq ++
        String.mk query ++ sq ++ ":\n") :: formatResults 1 results)

/-- Operation `search_knowledge_base(query, num_results)`. -/
def searchKnowledgeBase {V : Type} (env : SearchEnv V) (st : KBState V)
    (query : List Char) (num_results : Nat) : String :=
  if st.dbExists = false then
    kbNotFoundMsg
  else
    match EmbeddingGenerator.generate_embedding { svc := env.svc } query
        "RETRIEVAL_QUERY" with
    | Except.error e => "Error searching knowledge base: " ++ e
    | Except.ok query_embedding =>
      match st.table with
      | none => noDocsMsg
      | some rows =>
        match env.searchFn rows query_embedding num_results with
        | [] => noMatchesMsg query
        | r :: rrest => searchHitsMsg query (r :: rrest)

/-- The "empty knowledge base" signal of `get_indexed_documents`. -/
def kbEmptyMsg : String := "Knowledge base is empty (no documents indexed yet)"

/-- The statistics output of `get_indexed_documents`: total chunk count,
distinct sources, and one per-source line with that source's chunk count. -/
def statsMsg {V : Type} (rows : List (Row V)) : String :=
  String.intercalate ("\n")
    (["Knowledge Base Statistics:",
      "- Total chunks: " ++ toString rows.length,
      "- Indexed documents: " ++ toString (uniqueSources rows).length,
      "\nDocuments:"] ++
      (uniqueSources rows).map (fun s =>
        "  • " ++ pathName s ++ " (" ++ toString (sourceCount rows s) ++
          " chunks)"))

/-- Operation `get_indexed_documents()`: the inventory summary. -/
def getIndexedDocuments {V : Type} (st : KBState V) : String :=
  if st.dbExists = false then
    kbEmptyMsg
  else
    match st.table with
    | none => kbEmptyMsg
    | some rows => statsMsg rows

/-- Chunk count reported for `src` by the inventory state. -/
def stateSourceCount {V : Type} (st : KBState V) (src : String) : Nat :=
  match st.table with
  | none => 0
  | some rows => sourceCount rows src

/-- Dropping while a predicate fails on every element is the identity. -/
theorem dropWhile_eq_self_of (p : Char → Bool) (s : List Char)
    (h : ∀ c ∈ s, p c = false) : s.dropWhile p = s := by
  cases s with
  | nil => rfl
  | cons a as => simp [List.dropWhile_cons, h a (by simp)]

/-- Stripping is the identity on whitespace-free text. -/
theorem pyStrip_eq_self (s : List Char)
    (h : ∀ c ∈ s, c.isWhitespace = false) : pyStrip s = s := by
  unfold pyStrip
  rw [dropWhile_eq_self_of _ s h,
    dropWhile_eq_self_of _ s.reverse (fun c hc => h c (List.mem_reverse.mp hc)),
    List.reverse_reverse]

/-- One-step unfolding of the loop at positive fuel. -/
theorem chunkTextLoop_succ_def (cs ov : Nat) (text : List Char) (src : String)
    (fuel start idx : Nat) :
    chunkTextLoop cs ov text src (fuel + 1) start idx =
      (if start < text.length then
        if (pyStrip ((text.drop start).take cs)).length < 100 then []
        else
          { text := pyStrip ((text.drop start).take cs), source := src,
            chunk_index := idx, char_start := start,
            char_end := start + cs } ::
            chunkTextLoop cs ov text src fuel (start + (cs - ov)) (idx + 1)
      else []) := rfl

/-- Each loop iteration consumes one unit of fuel, so the output length is
bounded by the fuel. -/
theorem chunkTextLoop_length_le (cs ov : Nat) (text : List Char) (src : String) :
    ∀ fuel start idx, (chunkTextLoop cs ov text src fuel start idx).length ≤ fuel := by
  intro fuel
  induction fuel with
  | zero => intro start idx; simp [chunkTextLoop]
  | succ fuel ih =>
    intro start idx
    rw [chunkTextLoop_succ_def]
    by_cases hs : start < text.length
    · by_cases hb : (pyStrip ((text.drop start).take cs)).length < 100
      · simp [hs, hb]
      · rw [if_pos hs, if_neg hb, List.length_cons]
        have := ih (start + (cs - ov)) (idx + 1)
        omega
    · simp [hs]

/-- Shape of the `i`-th emitted chunk: `chunk_index` counts up from `idx`,
`char_start` advances from `start` in steps of `chunk_size - overlap`, and
`char_end = char_start + chunk_size`. -/
theorem chunkTextLoop_getElem (cs ov : Nat) (text : List Char) (src : String) :
    ∀ (fuel start idx i : Nat) (c : Chunk),
      (chunkTextLoop cs ov text src fuel start idx)[i]? = some c →
      c.chunk_index = idx + i ∧
      c.char_start = start + i * (cs - ov) ∧
      c.char_end = start + i * (cs - ov) + cs := by
  intro fuel
  induction fuel with
  | zero => intro start idx i c hc; simp [chunkTextLoop] at hc
  | succ fuel ih =>
    intro start idx i c hc
    rw [chunkTextLoop_succ_def] at hc
    by_cases hs : start < text.length
    · by_cases hb : (pyStrip ((text.drop start).take cs)).length < 100
      · simp [hs, hb] at hc
      · rw [if_pos hs, if_neg hb] at hc
        cases i with
        | zero =>
          rw [List.getElem?_cons_zero] at hc
          cases hc
          simp
        | succ j =>
          rw [List.getElem?_cons_succ] at hc
          have key := ih (start + (cs - ov)) (idx + 1) j c hc
          refine ⟨?_, ?_, ?_⟩
          · rw [key.1]; omega
          · rw [key.2.1, Nat.succ_mul]; ring
          · rw [key.2.2, Nat.succ_mul]; ring
    · simp [hs] at hc

/-- One extra unit of fuel changes nothing once the fuel covers the
remaining text (the loop advances by `chunk_size - overlap ≥ 1` per step). -/
theorem chunkTextLoop_succ_eq (cs ov : Nat) (hso : 0 < cs - ov)
    (text : List Char) (src : String) :
    ∀ (fuel start idx : Nat), text.length ≤ start + fuel →
      chunkTextLoop cs ov text src (fuel + 1) start idx =
        chunkTextLoop cs ov text src fuel start idx := by
  intro fuel
  induction fuel with
  | zero =>
    intro start idx hf
    have hs : ¬ start < text.length := by omega
    rw [chunkTextLoop_succ_def, if_neg hs]
    simp [chunkTextLoop]
  | succ fuel ih =>
    intro start idx hf
    rw [chunkTextLoop_succ_def cs ov text src (fuel + 1) start idx]
    conv_rhs => rw [chunkTextLoop_succ_def cs ov text src fuel start idx]
    by_cases hs : start < text.length
    · by_cases hb : (pyStrip ((text.drop start).take cs)).length < 100
      · simp only [if_pos hs, if_pos hb]
      · simp only [if_pos hs, if_neg hb]
        rw [ih (start + (cs - ov)) (idx + 1) (by omega)]
    · simp only [if_neg hs]

/-- Fuel-insensitivity: any fuel at least `text.length - start` gives the
same output as any larger fuel. -/
theorem chunkTextLoop_add_eq (cs ov : Nat) (hso : 0 < cs - ov)
    (text : List Char) (src : String) :
    ∀ (k fuel start idx : Nat), text.length ≤ start + fuel →
      chunkTextLoop cs ov text src (fuel + k) start idx =
        chunkTextLoop cs ov text src fuel start idx := by
  intro k
  induction k with
  | zero => intro fuel start idx _; rfl
  | succ k ih =>
    intro fuel start idx hf
    have he : fuel + (k + 1) = (fuel + k) + 1 := by omega
    rw [he, chunkTextLoop_succ_eq cs ov hso text src (fuel + k) start idx
      (by omega), ih fuel start idx hf]

/-- Chunk count of the loop on whitespace-free text, for the default
configuration `chunk_size = 2000`, `overlap = 200`: one chunk per window
start `start, start+1800, ...` that leaves at least 100 characters. -/
theorem chunkTextLoop_length_nonws (text : List Char) (src : String)
    (hn : ∀ c ∈ text, c.isWhitespace = false) :
    ∀ (fuel start idx : Nat), text.length ≤ start + fuel →
      (chunkTextLoop 2000 200 text src fuel start idx).length =
        if start + 100 ≤ text.length
        then (text.length - start - 100) / 1800 + 1 else 0 := by
  intro fuel
  induction fuel with
  | zero =>
    intro start idx hf
    have h1 : ¬ (start + 100 ≤ text.length) := by omega
    simp [chunkTextLoop, h1]
  | succ fuel ih =>
    intro start idx hf
    by_cases hs : start < text.length
    · have hwlen : ((text.drop start).take 2000).length =
          min 2000 (text.length - start) := by
        simp [List.length_take, List.length_drop]
      have hstrip : pyStrip ((text.drop start).take 2000) =
          (text.drop start).take 2000 :=
        pyStrip_eq_self _ (fun c hc =>
          hn c (List.drop_subset start text (List.take_subset 2000 _ hc)))
      by_cases hcut : start + 100 ≤ text.length
      · have hnb : ¬ (pyStrip ((text.drop start).take 2000)).length < 100 := by
          rw [hstrip, hwlen]; omega
        rw [chunkTextLoop_succ_def, if_pos hs, if_neg hnb, List.length_cons]
        rw [ih (start + (2000 - 200)) (idx + 1) (by omega)]
        have hstep : start + (2000 - 200) = start + 1800 := by omega
        rw [hstep, if_pos hcut]
        by_cases h2 : start + 1800 + 100 ≤ text.length
        · rw [if_pos h2]
          have e2 : text.length - start - 100 =
              (text.length - (start + 1800) - 100) + 1800 := by omega
          have hdiv : (text.length - start - 100) / 1800 =
              (text.length - (start + 1800) - 100) / 1800 + 1 := by
            rw [e2, Nat.add_div_right _ (by norm_num)]
          omega
        · rw [if_neg h2]
          have hdiv : (text.length - start - 100) / 1800 = 0 :=
            Nat.div_eq_of_lt (by omega)
          omega
      · have hb : (pyStrip ((text.drop start).take 2000)).length < 100 := by
          rw [hstrip, hwlen]; omega
        simp [chunkTextLoop, hs, hb, hcut]
    · have h1 : ¬ (start + 100 ≤ text.length) := by omega
      simp [chunkTextLoop, hs, h1]

/-- Shape of the `i`-th chunk of `chunk_text` (loop started at offset 0,
index 0). -/
theorem chunk_text_getElem (c : DocumentChunker) (text : List Char)
    (src : String) (i : Nat) (a : Chunk)
    (h : (c.chunk_text text src)[i]? = some a) :
    a.chunk_index = i ∧
    a.char_start = i * (c.chunk_size - c.overlap) ∧
    a.char_end = i * (c.chunk_size - c.overlap) + c.chunk_size := by
  have key := chunkTextLoop_getElem c.chunk_size c.overlap text src
    (text.length + 1) 0 0 i a h
  simpa using key

/-- Chunk count of `chunk_text` under the default configuration on
whitespace-free text. -/
theorem chunk_text_length_nonws (text : List Char) (src : String)
    (hn : ∀ ch ∈ text, ch.isWhitespace = false) :
    (DocumentChunker.chunk_text ⟨2000, 200⟩ text src).length =
      if 100 ≤ text.length then (text.length - 100) / 1800 + 1 else 0 := by
  have h := chunkTextLoop_length_nonws text src hn (text.length + 1) 0 0
    (by omega)
  show (chunkTextLoop 2000 200 text src (text.length + 1) 0 0).length = _
  rw [h]
  norm_num

/-- All characters of `List.replicate n 'a'` are non-whitespace. -/
theorem replicate_nonws (n : Nat) :
    ∀ ch ∈ List.replicate n 'a', ch.isWhitespace = false := by
  intro ch hc
  rw [List.eq_of_mem_replicate hc]
  rfl

/-- C1, as stated, is false on the code: for the whitespace-free text of
length exactly 2000, `chunk_text` emits 2 chunks (the full window at 0 and
the 200-character tail window at 1800, which passes the 100-character
minimum), not `floor((2000 - 2000) / 1800) + 1 = 1`. -/
theorem c1_counterexample :
    ¬ ((DocumentChunker.chunk_text ⟨2000, 200⟩ (List.replicate 2000 'a')
        "doc.txt").length = (2000 - 2000) / 1800 + 1) := by
  have h := chunk_text_length_nonws (List.replicate 2000 'a') "doc.txt"
    (replicate_nonws 2000)
  rw [List.length_replicate] at h
  norm_num at h
  rw [h]
  decide

/-- C1 (amended): for chunk_size=2000 and overlap=200, for every
whitespace-free text of length L ≥ 2000, `chunk_text` emits exactly
`floor((L - 100) / 1800) + 1` chunks, and consecutive chunks' `char_start`
values differ by 1800. -/
theorem c1_chunk_count_and_stride (text : List Char) (src : String)
    (hn : ∀ ch ∈ text, ch.isWhitespace = false)
    (hL : 2000 ≤ text.length) :
    (DocumentChunker.chunk_text ⟨2000, 200⟩ text src).length =
      (text.length - 100) / 1800 + 1 ∧
    ∀ (i : Nat) (a b : Chunk),
      (DocumentChunker.chunk_text ⟨2000, 200⟩ text src)[i]? = some a →
      (DocumentChunker.chunk_text ⟨2000, 200⟩ text src)[i + 1]? = some b →
      b.char_start - a.char_start = 1800 := by
  constructor
  · rw [chunk_text_length_nonws text src hn, if_pos (by omega)]
  · intro i a b ha hb
    have sa := chunk_text_getElem ⟨2000, 200⟩ text src i a ha
    have sb := chunk_text_getElem ⟨2000, 200⟩ text src (i + 1) b hb
    simp only [] at sa sb
    rw [sa.2.1, sb.2.1]
    have h18 : (2000 : Nat) - 200 = 1800 := by norm_num
    rw [h18, Nat.succ_mul]
    omega

/-- C1 witness: the counterexample text itself satisfies the amended count. -/
theorem c1_witness :
    (DocumentChunker.chunk_text ⟨2000, 200⟩ (List.replicate 2000 'a')
      "wit1.txt").length = 2 := by
  have h := (c1_chunk_count_and_stride (List.replicate 2000 'a') "wit1.txt"
    (replicate_nonws 2000) (by simp)).1
  simpa using h

/-- C3: for `0 ≤ overlap < chunk_size`, the `i`-th chunk has
`chunk_index = i` and `char_start = i * (chunk_size - overlap)`; consecutive
chunks advance `chunk_index` by exactly 1 and `char_start` by exactly
`chunk_size - overlap`, so both are strictly ascending. -/
theorem c3_index_and_start_monotone (c : DocumentChunker) (text : List Char)
    (src : String) (hov : c.overlap < c.chunk_size) :
    ∀ (i : Nat) (a : Chunk), (c.chunk_text text src)[i]? = some a →
      a.chunk_index = i ∧
      a.char_start = i * (c.chunk_size - c.overlap) ∧
      ∀ (b : Chunk), (c.chunk_text text src)[i + 1]? = some b →
        b.chunk_index = a.chunk_index + 1 ∧
        b.char_start = a.char_start + (c.chunk_size - c.overlap) ∧
        a.chunk_index < b.chunk_index ∧ a.char_start < b.char_start := by
  intro i a ha
  have sa := chunk_text_getElem c text src i a ha
  refine ⟨sa.1, sa.2.1, ?_⟩
  intro b hb
  have sb := chunk_text_getElem c text src (i + 1) b hb
  have hso : 0 < c.chunk_size - c.overlap := by omega
  refine ⟨?_, ?_, ?_, ?_⟩
  · rw [sa.1, sb.1]
  · rw [sa.2.1, sb.2.1, Nat.succ_mul]
  · rw [sa.1, sb.1]; omega
  · rw [sa.2.1, sb.2.1, Nat.succ_mul]
    exact Nat.lt_add_of_pos_right hso

/-- C3 witness: the single chunk of a 150-character text. -/
theorem c3_witness :
    (200 : Nat) < 2000 ∧
    (DocumentChunker.chunk_text ⟨2000, 200⟩ (List.replicate 150 'a')
        "wit3.txt")[0]? =
      some ⟨List.replicate 150 'a', "wit3.txt", 0, 0, 2000⟩ ∧
    (Chunk.mk (List.replicate 150 'a') "wit3.txt" 0 0 2000).chunk_index = 0 := by
  have hsome : (DocumentChunker.chunk_text ⟨2000, 200⟩ (List.replicate 150 'a')
      "wit3.txt")[0]? =
      some ⟨List.replicate 150 'a', "wit3.txt", 0, 0, 2000⟩ := by decide
  exact ⟨by decide, hsome,
    (c3_index_and_start_monotone ⟨2000, 200⟩ (List.replicate 150 'a')
      "wit3.txt" (by decide) 0 _ hsome).1⟩

/-- C7: under `0 ≤ overlap < chunk_size` the loop terminates — any fuel of
at least the text length yields the same (finite) chunk sequence, whose
length is bounded by `text.length + 1`; the function of the inputs is a
fixed value, so two runs on the same inputs agree. -/
theorem c7_terminates_deterministic (c : DocumentChunker) (text : List Char)
    (src : String) (hov : c.overlap < c.chunk_size) :
    (∀ fuel : Nat, text.length ≤ fuel →
      chunkTextLoop c.chunk_size c.overlap text src fuel 0 0 =
        c.chunk_text text src) ∧
    (c.chunk_text text src).length ≤ text.length + 1 := by
  have hso : 0 < c.chunk_size - c.overlap := by omega
  constructor
  · intro fuel hfuel
    have h1 := chunkTextLoop_add_eq c.chunk_size c.overlap hso text src
      (fuel - text.length) text.length 0 0 (by omega)
    have h2 := chunkTextLoop_add_eq c.chunk_size c.overlap hso text src
      1 text.length 0 0 (by omega)
    have he : text.length + (fuel - text.length) = fuel := by omega
    rw [he] at h1
    show _ = chunkTextLoop c.chunk_size c.overlap text src (text.length + 1) 0 0
    rw [h1, h2]
  · exact chunkTextLoop_length_le c.chunk_size c.overlap text src
      (text.length + 1) 0 0

/-- C7 witness: fuel 150 and the default fuel agree on a 150-character text. -/
theorem c7_witness :
    (List.replicate 150 'a').length ≤ 150 ∧
    chunkTextLoop 2000 200 (List.replicate 150 'a') "wit7.txt" 150 0 0 =
      DocumentChunker.chunk_text ⟨2000, 200⟩ (List.replicate 150 'a')
        "wit7.txt" := by
  refine ⟨by simp, ?_⟩
  exact (c7_terminates_deterministic ⟨2000, 200⟩ (List.replicate 150 'a')
    "wit7.txt" (by decide)).1 150 (by simp)

/-- C10: every emitted chunk, the final one included, has
`char_end - char_start = chunk_size` exactly, and the final chunk's
`char_end` can exceed the text length (it is never clamped): on a
150-character text the sole chunk records `char_end = 2000 > 150`. -/
theorem c10_char_end_unclamped (c : DocumentChunker) (text : List Char)
    (src : String) :
    (∀ (i : Nat) (a : Chunk), (c.chunk_text text src)[i]? = some a →
      a.char_end - a.char_start = c.chunk_size ∧
      a.char_end = a.char_start + c.chunk_size) ∧
    (∃ (t : List Char) (a : Chunk),
      (DocumentChunker.chunk_text ⟨2000, 200⟩ t ("tail.txt"))[0]? = some a ∧
      t.length < a.char_end) := by
  constructor
  · intro i a ha
    have sa := chunk_text_getElem c text src i a ha
    constructor
    · rw [sa.2.2, sa.2.1]
      simp
    · rw [sa.2.2, sa.2.1]
  · refine ⟨List.replicate 150 'a',
      ⟨List.replicate 150 'a', "tail.txt", 0, 0, 2000⟩, by decide, by simp⟩

/-- C10 witness: the width equation evaluated on the single chunk of a
150-character text. -/
theorem c10_witness :
    (DocumentChunker.chunk_text ⟨2000, 200⟩ (List.replicate 150 'a')
        "wit10.txt")[0]? =
      some ⟨List.replicate 150 'a', "wit10.txt", 0, 0, 2000⟩ ∧
    (Chunk.mk (List.replicate 150 'a') "wit10.txt" 0 0 2000).char_end -
      (Chunk.mk (List.replicate 150 'a') "wit10.txt" 0 0 2000).char_start =
      2000 := by
  have hsome : (DocumentChunker.chunk_text ⟨2000, 200⟩ (List.replicate 150 'a')
      "wit10.txt")[0]? =
      some ⟨List.replicate 150 'a', "wit10.txt", 0, 0, 2000⟩ := by decide
  exact ⟨hsome,
    ((c10_char_end_unclamped ⟨2000, 200⟩ (List.replicate 150 'a')
      "wit10.txt").1 0 _ hsome).1⟩

/-- C2: `generate_batch_embeddings` is observationally the pointwise map of
`generate_embedding`: a successful batch has exactly one vector per input
text, in input order, each equal to the single-text result; and if every
single-text call succeeds, the batch succeeds. -/
theorem c2_batch_matches_single {V : Type} (g : EmbeddingGenerator V)
    (texts : List (List Char)) (task : String) :
    (∀ vs : List V,
      g.generate_batch_embeddings texts task = Except.ok vs →
      vs.length = texts.length ∧
      ∀ (i : Nat) (t : List Char), texts[i]? = some t →
        ∃ v : V, vs[i]? = some v ∧
          g.generate_embedding t task = Except.ok v) ∧
    ((∀ t ∈ texts, ∃ v : V, g.generate_embedding t task = Except.ok v) →
      ∃ vs : List V, g.generate_batch_embeddings texts task = Except.ok vs) := by
  induction texts with
  | nil =>
    constructor
    · intro vs hvs
      simp only [EmbeddingGenerator.generate_batch_embeddings] at hvs
      cases hvs
      simp
    · intro
      exact ⟨[], rfl⟩
  | cons t ts ih =>
    constructor
    · intro vs hvs
      cases hse : g.generate_embedding t task with
      | error e =>
        simp only [EmbeddingGenerator.generate_batch_embeddings, hse] at hvs
        cases hvs
      | ok v =>
        cases hsb : g.generate_batch_embeddings ts task with
        | error e =>
          simp only [EmbeddingGenerator.generate_batch_embeddings, hse, hsb]
            at hvs
          cases hvs
        | ok ws =>
          simp only [EmbeddingGenerator.generate_batch_embeddings, hse, hsb]
            at hvs
          cases hvs
          have tail := (ih.1 ws hsb)
          constructor
          · simp [tail.1]
          · intro i tx htx
            cases i with
            | zero =>
              rw [List.getElem?_cons_zero] at htx
              cases htx
              exact ⟨v, by simp, hse⟩
            | succ j =>
              rw [List.getElem?_cons_succ] at htx
              obtain ⟨w, hw1, hw2⟩ := tail.2 j tx htx
              exact ⟨w, by simpa using hw1, hw2⟩
    · intro hall
      obtain ⟨v, hv⟩ := hall t (by simp)
      obtain ⟨ws, hws⟩ := ih.2 (fun x hx => hall x (by simp [hx]))
      refine ⟨v :: ws, ?_⟩
      simp only [EmbeddingGenerator.generate_batch_embeddings, hv, hws]

/-- C2 witness: a two-text batch against a concrete service oracle. -/
theorem c2_witness :
    EmbeddingGenerator.generate_batch_embeddings (V := Nat)
        ⟨"m", 4, fun _ t _ _ => Except.ok t.length⟩ [['a'], ['b', 'c']]
        "RETRIEVAL_DOCUMENT" = Except.ok [1, 2] ∧
    ([1, 2] : List Nat).length = ([['a'], ['b', 'c']] : List (List Char)).length := by
  have hb : EmbeddingGenerator.generate_batch_embeddings (V := Nat)
      ⟨"m", 4, fun _ t _ _ => Except.ok t.length⟩ [['a'], ['b', 'c']]
      "RETRIEVAL_DOCUMENT" = Except.ok [1, 2] := rfl
  exact ⟨hb, ((c2_batch_matches_single _ _ _).1 [1, 2] hb).1⟩

/-- The "index absent" signal differs from every "no matches" signal. -/
theorem kbNotFound_ne_noMatches (q : List Char) :
    kbNotFoundMsg ≠ noMatchesMsg q := by
  intro he
  have h1 : kbNotFoundMsg.data.head? = some 'K' := rfl
  have h2 : (noMatchesMsg q).data.head? = some 'N' := rfl
  rw [he] at h1
  rw [h1] at h2
  exact absurd h2 (by decide)

/-- C4: `search_knowledge_base` distinguishes three outcomes: storage
location never created → the "index your documents first" signal; index
present but zero matches → the "no relevant information" signal; matches →
the ranked result list.  The absent signal is not an error string and not
the empty-match signal. -/
theorem c4_search_trichotomy {V : Type} (env : SearchEnv V) (st : KBState V)
    (q : List Char) (k : Nat) :
    (st.dbExists = false → searchKnowledgeBase env st q k = kbNotFoundMsg) ∧
    (∀ (rows : List (Row V)) (qe : V),
      st.dbExists = true → st.table = some rows →
      EmbeddingGenerator.generate_embedding ⟨"gemini-embedding-001", 768,
        env.svc⟩ q ("RETRIEVAL_QUERY") = Except.ok qe →
      env.searchFn rows qe k = [] →
      searchKnowledgeBase env st q k = noMatchesMsg q) ∧
    (∀ (rows : List (Row V)) (qe : V) (r : Row V) (rs : List (Row V)),
      st.dbExists = true → st.table = some rows →
      EmbeddingGenerator.generate_embedding ⟨"gemini-embedding-001", 768,
        env.svc⟩ q ("RETRIEVAL_QUERY") = Except.ok qe →
      env.searchFn rows qe k = r :: rs →
      searchKnowledgeBase env st q k = searchHitsMsg q (r :: rs)) ∧
    ("Error".data.isPrefixOf kbNotFoundMsg.data = false ∧
      ∀ q' : List Char, kbNotFoundMsg ≠ noMatchesMsg q') := by
  refine ⟨?_, ?_, ?_, by decide, kbNotFound_ne_noMatches⟩
  · intro h
    simp [searchKnowledgeBase, h]
  · intro rows qe hdb htab hemb hres
    simp [searchKnowledgeBase, hdb, htab, hemb, hres]
  · intro rows qe r rs hdb htab hemb hres
    simp [searchKnowledgeBase, hdb, htab, hemb, hres]

/-- C4 witness: the three outcomes realized on concrete states. -/
theorem c4_witness :
    searchKnowledgeBase (V := Nat)
        ⟨fun _ _ _ _ => Except.ok 0, fun _ _ _ => []⟩ ⟨false, none⟩ ['q'] 5 =
      kbNotFoundMsg ∧
    searchKnowledgeBase (V := Nat)
        ⟨fun _ _ _ _ => Except.ok 0, fun _ _ _ => []⟩ ⟨true, some []⟩ ['q'] 5 =
      noMatchesMsg ['q'] ∧
    searchKnowledgeBase (V := Nat)
        ⟨fun _ _ _ _ => Except.ok 0, fun rows _ _ => rows⟩
        ⟨true, some [⟨['t'], 0, "s.txt", 0, 0, 2000⟩]⟩ ['q'] 5 =
      searchHitsMsg ['q'] [⟨['t'], 0, "s.txt", 0, 0, 2000⟩] := by
  refine ⟨?_, ?_, ?_⟩
  · exact (c4_search_trichotomy _ _ _ _).1 rfl
  · exact (c4_search_trichotomy _ _ _ _).2.1 [] 0 rfl rfl rfl rfl
  · exact (c4_search_trichotomy _ _ _ _).2.2.1
      [⟨['t'], 0, "s.txt", 0, 0, 2000⟩] 0 ⟨['t'], 0, "s.txt", 0, 0, 2000⟩ []
      rfl rfl rfl rfl

/-- C9: any failure before the storage write — missing file, extraction
exception, unusable text (empty or trimmed length < 50), zero chunks, or an
embedding-service error — leaves the knowledge-base state exactly as it was. -/
theorem c9_failure_preserves_state {V : Type} (env : IngestEnv V)
    (st : KBState V) (p : String)
    (h : env.fileExists = false ∨
      (∃ e, env.extract = Except.error e) ∨
      (∃ t, env.extract = Except.ok t ∧
        (t.isEmpty || decide ((pyStrip t).length < 50)) = true) ∨
      (∃ t, env.extract = Except.ok t ∧
        DocumentChunker.chunk_text ⟨2000, 200⟩ t p = []) ∨
      (∃ t e, env.extract = Except.ok t ∧
        EmbeddingGenerator.generate_batch_embeddings
          ⟨"gemini-embedding-001", 768, env.svc⟩
          ((DocumentChunker.chunk_text ⟨2000, 200⟩ t p).map (fun ch => ch.text))
          "RETRIEVAL_DOCUMENT" = Except.error e)) :
    (indexDocument env st p).2 = st := by
  by_cases h1 : env.fileExists = false
  · simp [indexDocument, h1]
  · cases hext : env.extract with
    | error e => simp [indexDocument, h1, hext]
    | ok t =>
      by_cases h3 : (t.isEmpty || decide ((pyStrip t).length < 50)) = true
      · simp [indexDocument, h1, hext, h3]
      · cases hch : DocumentChunker.chunk_text ⟨2000, 200⟩ t p with
        | nil => simp [indexDocument, h1, hext, h3, hch]
        | cons c crest =>
          cases hemb : EmbeddingGenerator.generate_batch_embeddings
              ⟨"gemini-embedding-001", 768, env.svc⟩
              (c.text :: List.map (fun ch => ch.text) crest)
              "RETRIEVAL_DOCUMENT" with
          | error e => simp [indexDocument, h1, hext, h3, hch, hemb]
          | ok vs =>
            exfalso
            rcases h with hA | ⟨e, hB⟩ | ⟨t', hC, hC2⟩ | ⟨t', hD, hD2⟩ |
              ⟨t', e, hE, hE2⟩
            · exact h1 hA
            · rw [hB] at hext; cases hext
            · rw [hext] at hC
              cases hC
              exact h3 hC2
            · rw [hext] at hD
              cases hD
              rw [hch] at hD2
              cases hD2
            · rw [hext] at hE
              cases hE
              rw [hch] at hE2
              simp only [List.map_cons] at hE2
              rw [hemb] at hE2
              cases hE2

/-- C9 witness: a missing file leaves the empty state untouched. -/
theorem c9_witness :
    (indexDocument (V := Nat)
      ⟨false, Except.error ("gone"), fun _ _ _ _ => Except.ok 0, true, ""⟩
      ⟨false, none⟩ "wit9.txt").2 = ⟨false, none⟩ :=
  c9_failure_preserves_state _ _ _ (Or.inl rfl)

/-- When every step succeeds, `index_document` reports success and appends
the zipped (chunk, vector) rows to the table (creating it when absent). -/
theorem indexDocument_success {V : Type} (env : IngestEnv V) (st : KBState V)
    (p : String) (t : List Char) (vs : List V)
    (h1 : env.fileExists = true)
    (h2 : env.extract = Except.ok t)
    (h3 : (t.isEmpty || decide ((pyStrip t).length < 50)) = false)
    (h4 : 0 < (DocumentChunker.chunk_text ⟨2000, 200⟩ t p).length)
    (h5 : EmbeddingGenerator.generate_batch_embeddings
        ⟨"gemini-embedding-001", 768, env.svc⟩
        ((DocumentChunker.chunk_text ⟨2000, 200⟩ t p).map (fun ch => ch.text))
        "RETRIEVAL_DOCUMENT" = Except.ok vs)
    (h6 : env.addOk = true) :
    indexDocument env st p =
      (successMsg p (DocumentChunker.chunk_text ⟨2000, 200⟩ t p).length,
       ⟨true, some (st.table.getD [] ++
         List.zipWith (fun ch v =>
             Row.mk ch.text v ch.source ch.chunk_index ch.char_start ch.char_end)
           (DocumentChunker.chunk_text ⟨2000, 200⟩ t p) vs)⟩) := by
  cases hch : DocumentChunker.chunk_text ⟨2000, 200⟩ t p with
  | nil => rw [hch] at h4; simp at h4
  | cons c crest =>
    rw [hch] at h5
    simp only [List.map_cons] at h5
    cases htab : st.table with
    | none =>
      simp [indexDocument, h1, h2, h3, hch, h5, h6, htab]
    | some rows =>
      simp [indexDocument, h1, h2, h3, hch, h5, h6, htab]

/-- Per-source row counting distributes over appends. -/
theorem sourceCount_append {V : Type} (xs ys : List (Row V)) (s : String) :
    sourceCount (xs ++ ys) s = sourceCount xs s + sourceCount ys s := by
  simp [sourceCount, List.filter_append]

/-- C5: ingesting the same path twice appends a second, independent copy of
its chunk rows (no deduplication), so the chunk count the inventory reports
for that source after the second ingestion is exactly double the count
after the first. -/
theorem c5_reingest_doubles {V : Type} (env : IngestEnv V) (st : KBState V)
    (p : String) (t : List Char) (vs : List V)
    (h1 : env.fileExists = true)
    (h2 : env.extract = Except.ok t)
    (h3 : (t.isEmpty || decide ((pyStrip t).length < 50)) = false)
    (h4 : 0 < (DocumentChunker.chunk_text ⟨2000, 200⟩ t p).length)
    (h5 : EmbeddingGenerator.generate_batch_embeddings
        ⟨"gemini-embedding-001", 768, env.svc⟩
        ((DocumentChunker.chunk_text ⟨2000, 200⟩ t p).map (fun ch => ch.text))
        "RETRIEVAL_DOCUMENT" = Except.ok vs)
    (h6 : env.addOk = true)
    (h0 : stateSourceCount st p = 0) :
    stateSourceCount (indexDocument env (indexDocument env st p).2 p).2 p =
      2 * stateSourceCount (indexDocument env st p).2 p := by
  have hc0 : sourceCount (st.table.getD []) p = 0 := by
    cases htab : st.table with
    | none => simp [sourceCount]
    | some rows => simpa [stateSourceCount, htab] using h0
  have e1 := indexDocument_success env st p t vs h1 h2 h3 h4 h5 h6
  rw [e1]
  have e2 := indexDocument_success env
    ⟨true, some (st.table.getD [] ++
      List.zipWith (fun ch v =>
          Row.mk ch.text v ch.source ch.chunk_index ch.char_start ch.char_end)
        (DocumentChunker.chunk_text ⟨2000, 200⟩ t p) vs)⟩
    p t vs h1 h2 h3 h4 h5 h6
  rw [e2]
  dsimp only [stateSourceCount, Option.getD_some]
  rw [sourceCount_append, sourceCount_append, hc0]
  omega

/-- C5 witness: double-ingestion of a concrete 150-character document into
an initially empty store. -/
theorem c5_witness :
    stateSourceCount
        (indexDocument (V := Nat)
          ⟨true, Except.ok (List.replicate 150 'a'),
            fun _ _ _ _ => Except.ok 0, true, ""⟩
          (indexDocument (V := Nat)
            ⟨true, Except.ok (List.replicate 150 'a'),
              fun _ _ _ _ => Except.ok 0, true, ""⟩
            ⟨false, none⟩ "wit5.txt").2 ("wit5.txt")).2 ("wit5.txt") =
      2 * stateSourceCount
        (indexDocument (V := Nat)
          ⟨true, Except.ok (List.replicate 150 'a'),
            fun _ _ _ _ => Except.ok 0, true, ""⟩
          ⟨false, none⟩ "wit5.txt").2 ("wit5.txt") := by
  exact c5_reingest_doubles _ _ ("wit5.txt") (List.replicate 150 'a') [0]
    rfl rfl (by decide) (by decide) rfl rfl rfl

/-- C6: whatever the oracle outcomes, each boundary operation returns a
descriptive string — success or an `Error ...` string for `index_document`;
one of the two absence signals, the no-match signal, the ranked list, or an
`Error ...` string for `search_knowledge_base`; the empty signal or the
statistics for `get_indexed_documents` — and the expected-absence signals
are not error strings. -/
theorem c6_boundary_outcomes {V : Type} (env : IngestEnv V)
    (senv : SearchEnv V) (st : KBState V) (p : String) (q : List Char)
    (k : Nat) :
    ((∃ n : Nat, (indexDocument env st p).1 = successMsg p n) ∨
      "Error".data.isPrefixOf (indexDocument env st p).1.data = true) ∧
    (searchKnowledgeBase senv st q k = kbNotFoundMsg ∨
      searchKnowledgeBase senv st q k = noDocsMsg ∨
      searchKnowledgeBase senv st q k = noMatchesMsg q ∨
      (∃ rows : List (Row V),
        searchKnowledgeBase senv st q k = searchHitsMsg q rows) ∨
      (∃ e : String, searchKnowledgeBase senv st q k =
        "Error searching knowledge base: " ++ e)) ∧
    (getIndexedDocuments st = kbEmptyMsg ∨
      (∃ rows : List (Row V), st.table = some rows ∧
        getIndexedDocuments st = statsMsg rows)) ∧
    ("Error".data.isPrefixOf kbNotFoundMsg.data = false ∧
      "Error".data.isPrefixOf noDocsMsg.data = false ∧
      (∀ q' : List Char,
        "Error".data.isPrefixOf (noMatchesMsg q').data = false) ∧
      "Error".data.isPrefixOf kbEmptyMsg.data = false) := by
  refine ⟨?_, ?_, ?_, by decide, by decide, ?_, by decide⟩
  · by_cases h1 : env.fileExists = false
    · right
      have hmsg : (indexDocument env st p).1 =
          "Error: File " ++ p ++ " does not exist" := by
        simp [indexDocument, h1]
      rw [hmsg]
      rfl
    · cases hext : env.extract with
      | error e =>
        right
        have hmsg : (indexDocument env st p).1 =
            "Error indexing document: " ++ e := by
          simp [indexDocument, h1, hext]
        rw [hmsg]
        rfl
      | ok t =>
        by_cases h3 : (t.isEmpty || decide ((pyStrip t).length < 50)) = true
        · right
          have hmsg : (indexDocument env st p).1 =
              "Error: Could not extract meaningful text from " ++ p := by
            simp [indexDocument, h1, hext, h3]
          rw [hmsg]
          rfl
        · cases hch : DocumentChunker.chunk_text ⟨2000, 200⟩ t p with
          | nil =>
            right
            have hmsg : (indexDocument env st p).1 =
                "Error: No chunks created from " ++ p := by
              simp [indexDocument, h1, hext, h3, hch]
            rw [hmsg]
            rfl
          | cons c crest =>
            cases hemb : EmbeddingGenerator.generate_batch_embeddings
                ⟨"gemini-embedding-001", 768, env.svc⟩
                (c.text :: List.map (fun ch => ch.text) crest)
                "RETRIEVAL_DOCUMENT" with
            | error e =>
              right
              have hmsg : (indexDocument env st p).1 =
                  "Error indexing document: " ++ e := by
                simp [indexDocument, h1, hext, h3, hch, hemb]
              rw [hmsg]
              rfl
            | ok vs =>
              cases htab : st.table with
              | none =>
                left
                exact ⟨crest.length + 1,
                  by simp [indexDocument, h1, hext, h3, hch, hemb, htab]⟩
              | some rows =>
                by_cases hadd : env.addOk = true
                · left
                  exact ⟨crest.length + 1, by
                    simp [indexDocument, h1, hext, h3, hch, hemb, htab, hadd]⟩
                · right
                  have hmsg : (indexDocument env st p).1 =
                      "Error indexing document: " ++ env.addErr := by
                    simp [indexDocument, h1, hext, h3, hch, hemb, htab, hadd]
                  rw [hmsg]
                  rfl
  · by_cases hdb : st.dbExists = false
    · left
      simp [searchKnowledgeBase, hdb]
    · cases hemb : EmbeddingGenerator.generate_embedding
          ⟨"gemini-embedding-001", 768, senv.svc⟩ q ("RETRIEVAL_QUERY") with
      | error e =>
        right; right; right; right
        exact ⟨e, by simp [searchKnowledgeBase, hdb, hemb]⟩
      | ok qe =>
        cases htab : st.table with
        | none =>
          right; left
          simp [searchKnowledgeBase, hdb, hemb, htab]
        | some rows =>
          cases hres : senv.searchFn rows qe k with
          | nil =>
            right; right; left
            simp [searchKnowledgeBase, hdb, hemb, htab, hres]
          | cons r rs =>
            right; right; right; left
            exact ⟨r :: rs, by
              simp [searchKnowledgeBase, hdb, hemb, htab, hres]⟩
  · by_cases hdb : st.dbExists = false
    · left
      simp [getIndexedDocuments, hdb]
    · cases htab : st.table with
      | none =>
        left
        simp [getIndexedDocuments, hdb, htab]
      | some rows =>
        right
        exact ⟨rows, rfl, by simp [getIndexedDocuments, hdb, htab]⟩
  · intro q'
    rfl

end KnowledgeTools
